import Mathlib

/-!
# Codegate evaluation engine — shallow embedding

A shallow embedding of the core of the `codegate` contract-evaluation
engine, translated from the Python sources:

* `codegate/engine/runner.py`        — the evaluation runner (rule dispatch),
* `codegate/engine/result.py`        — result aggregation,
* `codegate/engine/docker_runner.py` — the dependency-image cache.

Python dicts are modelled structurally, the Docker daemon as explicit
state passed to the functions that consult it, and Python exceptions
with `Except`.  Wall-clock durations are not modelled.

A load-bearing fact about the source: the package `codegate/rules/`
cannot be imported.  Its `__init__.py` begins with
`from .base import RuleExecutor`, but `base.py` defines only `BaseRule`,
so executing the package init raises `ImportError`; since importing any
submodule `codegate.rules.X` first executes the package init, every rule
module load fails (additionally, `rules/policy.py` is not valid Python:
`_check_imports` at its line 115 is dedented to 3 spaces, an
`IndentationError`).  The dispatch model below reflects this: the rule
registry is effectively empty, `load_rule_module` fails for every name,
and no rule body is ever reached.  The policy analyzer is therefore not
embedded — its module has no runtime counterpart — and claims about its
behaviour are settled at the dispatch boundary.
-/

namespace Codegate

/-! ## String helpers

Lean core string functions such as `String.trim` and
`String.intercalate` are defined through iterators and well-founded
recursion, which the kernel does not reduce; the helpers below are
structural equivalents used so that concrete scenarios can be settled by
`decide` / `rfl`.  Each one states which Python primitive it models. -/

/-- Code-point comparison of two strings, as Python compares `str`
(lexicographic over code points). -/
def charListLe : List Char → List Char → Bool
  | [], _ => true
  | _ :: _, [] => false
  | a :: as, b :: bs =>
    if a.toNat < b.toNat then true
    else if b.toNat < a.toNat then false
    else charListLe as bs

/-- `a <= b` on strings, the Python `str` ordering. -/
def strLe (a b : String) : Bool :=
  charListLe a.toList b.toList

/-- Insertion into a sorted list, ordered by `strLe`. -/
def insertSorted (s : String) : List String → List String
  | [] => [s]
  | t :: ts => if strLe s t then s :: t :: ts else t :: insertSorted s ts

/-- The Python `sorted` on a list of strings. -/
def sortStrings (l : List String) : List String :=
  l.foldr insertSorted []

/-- The Python `sep.join(l)`. -/
def joinWith (sep : String) : List String → String
  | [] => ""
  | [x] => x
  | x :: y :: xs => x ++ sep ++ joinWith sep (y :: xs)

/-- The Python `s[:n]` on a string. -/
def strTake (s : String) (n : Nat) : String :=
  String.mk (s.toList.take n)

/-- The Python `s.replace("-", "_")` (single-character pattern). -/
def dashToUnderscore (s : String) : String :=
  String.mk (s.toList.map (fun c => if c = '-' then '_' else c))

/-! ## Evaluation runner (`codegate/engine/runner.py`)

Rule execution itself (instantiating the `Rule` class of a loaded module
and calling its `execute`) is modelled parametrically in an executor
`execRule : String → RuleConfig → Except String (Bool × String)` whose
`Except.error e` case stands for a Python exception with message `e`
escaping the rule body.  In the shipped code this executor is never
invoked: module loading fails first (see `load_rule_module`), so the
parameter stands for what a rule body would do if it were reached, and
the theorems below hold for every such behaviour. -/

/-- The value found under a rule name in the rules mapping of the
contract: either a dict — whose `enabled` key, when present, is modelled
(`none` = key absent; the contract schema guarantees a boolean) — or a
non-dict YAML value (string, null, ...). -/
inductive RuleConfig where
  | dict (enabled : Option Bool)
  | nonDict
  deriving DecidableEq, Repr

/-- Skip test in `EvaluationRunner.run`:
`isinstance(rule_config, dict) and not rule_config.get("enabled", True)`. -/
def isDisabled : RuleConfig → Bool
  | .dict enabled => !(enabled.getD true)
  | .nonDict => false

/-- `config = rule_config if isinstance(rule_config, dict) else {}` in
`EvaluationRunner._run_rule`: a non-dict config is replaced by the empty
dict (no `enabled` key). -/
def normalizeConfig : RuleConfig → RuleConfig
  | .dict enabled => .dict enabled
  | .nonDict => .dict none

/-- The `ImportError` message raised by executing
`codegate/rules/__init__.py`: its first statement
`from .base import RuleExecutor` fails because `base.py` defines only
`BaseRule`.  CPython appends the defining file path in parentheses
(`... from \x27codegate.rules.base\x27 (/path/to/base.py)`); that
environment-dependent suffix is elided here. -/
def rulesPackageImportError : String :=
  "cannot import name \x27RuleExecutor\x27 from \x27codegate.rules.base\x27"

/-- `EvaluationRunner._load_rule_module`: convert the rule name to a
module name (dashes to underscores) and import
`codegate.rules.<module>`.  Importing any submodule first executes the
package init, which raises (see `rulesPackageImportError`); the
`except ImportError` clause wraps it as
`ImportError(f"Rule \x27{rule_name}\x27 not found at {module_path}: {e}")`.
Every load therefore fails; the `Except.ok` case of the return type is
the success path of the source text, which no execution reaches. -/
def load_rule_module (rule_name : String) : Except String String :=
  let module_name := dashToUnderscore rule_name
  Except.error ("Rule \x27" ++ rule_name ++ "\x27 not found at codegate.rules."
    ++ module_name ++ ": " ++ rulesPackageImportError)

/-- `RuleResult` (`codegate/engine/result.py`), without the wall-clock
`duration` field and with the rule-specific `details` dict elided. -/
structure RuleResult where
  rule_name : String
  passed : Bool
  message : String
  deriving DecidableEq, Repr

/-- `EvaluationRunner._run_rule`: load the module, normalize the config,
run the rule; *any* exception from loading or execution is caught by the
single `except Exception` clause and converted into a failed
`RuleResult` whose message carries the exception message.  The return
type records that nothing propagates.  The inner match is the success
path of the source text; since `load_rule_module` always fails, it is
unreachable, matching the program. -/
def run_rule (execRule : String → RuleConfig → Except String (Bool × String))
    (rule_name : String) (rule_config : RuleConfig) : RuleResult :=
  match load_rule_module rule_name with
  | .error e =>
    { rule_name := rule_name, passed := false
      message := "Rule execution failed: " ++ e }
  | .ok _ =>
    match execRule rule_name (normalizeConfig rule_config) with
    | .ok (passed, message) =>
      { rule_name := rule_name, passed := passed, message := message }
    | .error e =>
      { rule_name := rule_name, passed := false
        message := "Rule execution failed: " ++ e }

/-- Rule loop of `EvaluationRunner.run`: iterate the rules of the
contract in order, skip disabled ones, and collect one `RuleResult` per
dispatched rule. -/
def runRules (execRule : String → RuleConfig → Except String (Bool × String)) :
    List (String × RuleConfig) → List RuleResult
  | [] => []
  | (rule_name, rule_config) :: rest =>
    if isDisabled rule_config then runRules execRule rest
    else run_rule execRule rule_name rule_config :: runRules execRule rest

/-! ## Result aggregation (`codegate/engine/result.py`) -/

/-- Round to the nearest integer, ties to even — the Python `round`
(modelled over `ℚ`; the source rounds IEEE floats, whose representation
error is not modelled). -/
def roundTiesEven (x : ℚ) : ℤ :=
  let f := ⌊x⌋
  let frac := x - f
  if frac < 1/2 then f
  else if 1/2 < frac then f + 1
  else if f % 2 = 0 then f else f + 1

/-- The Python `round(x, 1)`. -/
def round1 (x : ℚ) : ℚ :=
  (roundTiesEven (x * 10) : ℚ) / 10

/-- The `summary` object of `EvaluationResult.to_dict`, without the
wall-clock `duration` field. -/
structure Summary where
  total : Nat
  passed : Nat
  failed : Nat
  success_rate : ℚ
  deriving DecidableEq, Repr

/-- The summary computation of `EvaluationResult.to_dict`:
`round(passed_count / len(results) * 100, 1) if results else 0.0`. -/
def summaryOf (rule_results : List RuleResult) : Summary :=
  let passed_count := (rule_results.filter (fun r => r.passed)).length
  let failed_count := rule_results.length - passed_count
  { total := rule_results.length
    passed := passed_count
    failed := failed_count
    success_rate :=
      if rule_results.isEmpty then 0
      else round1 ((passed_count : ℚ) / (rule_results.length : ℚ) * 100) }

/-! ## Docker runner (`codegate/engine/docker_runner.py`)

The Docker daemon is modelled as explicit state: availability, the set of
locally existing image tags, and an oracle for whether `docker build`
exits 0.  `hashlib.sha256(...).hexdigest()` is an external library
primitive and is abstracted as a parameter `hash : String → String`; the
cache properties proved below hold for every hash function. -/

/-- The observable Docker daemon state. -/
structure DockerState where
  available : Bool
  images : List String
  buildSucceeds : Bool
  deriving DecidableEq, Repr

/-- The content string hashed by `DockerRunner._hash_config`:
`f"{runtime_image}|{','.join(sorted(system_dependencies))}|{','.join(sorted(python_dependencies))}"`. -/
def hash_config_content (runtime_image : String)
    (system_dependencies python_dependencies : List String) : String :=
  runtime_image ++ "|" ++ joinWith "," (sortStrings system_dependencies)
    ++ "|" ++ joinWith "," (sortStrings python_dependencies)

/-- `DockerRunner._hash_config` with the digest abstracted. -/
def hash_config (hash : String → String) (runtime_image : String)
    (system_dependencies python_dependencies : List String) : String :=
  hash (hash_config_content runtime_image system_dependencies python_dependencies)

/-- `f"{self.DEPS_IMAGE_PREFIX}:{config_hash[:12]}"`. -/
def image_tag (hash : String → String) (runtime_image : String)
    (system_dependencies python_dependencies : List String) : String :=
  "codegate-deps:" ++
    strTake (hash_config hash runtime_image system_dependencies python_dependencies) 12

/-- Outcome of a successful `DockerRunner.build_deps_image` call: the
returned tag, the daemon state afterwards, and whether `docker build`
was actually invoked (false on a cache hit). -/
structure BuildOutcome where
  tag : String
  state : DockerState
  didBuild : Bool
  deriving DecidableEq, Repr

/-- `DockerRunner._image_exists`. -/
def image_exists (st : DockerState) (tag : String) : Bool :=
  st.images.contains tag

/-- `DockerRunner.build_deps_image`: check availability, compute the
config-hash tag, return it immediately if the image exists and
`force_rebuild` is false; otherwise run `docker build` (registering the
tag on success) or raise on build failure.  The Dockerfile/requirements
materialization does not affect the returned reference and is elided. -/
def build_deps_image (hash : String → String) (st : DockerState)
    (runtime_image : String) (system_dependencies python_dependencies : List String)
    (force_rebuild : Bool) : Except String BuildOutcome :=
  if !st.available then
    Except.error "Docker is not available or not running. Please install/start Docker to use Docker-based evaluations."
  else
    let tag := image_tag hash runtime_image system_dependencies python_dependencies
    if !force_rebuild && image_exists st tag then
      Except.ok { tag := tag, state := st, didBuild := false }
    else if st.buildSucceeds then
      Except.ok { tag := tag
                  state := { st with images := tag :: st.images }
                  didBuild := true }
    else
      Except.error "Docker build failed: see build log"

/-! ## Concrete fixtures used by the scenario theorems and witnesses -/

/-- A rule-body executor that always raises, standing for a rule whose
body would throw an exception with message `boom` (never invoked in the
shipped code: loading fails first). -/
def execBoom : String → RuleConfig → Except String (Bool × String) :=
  fun _ _ => Except.error "boom"

/-- A rule-body executor that always succeeds — standing for a healthy
rule body, e.g. a policy analyzer that would report its violations
(never invoked in the shipped code: loading fails first). -/
def execOk : String → RuleConfig → Except String (Bool × String) :=
  fun _ _ => Except.ok (true, "ok")

/-- Concrete outcome of the first (building) call in the cache
idempotence witness. -/
def witnessOutcome1 : BuildOutcome :=
  { tag := "codegate-deps:python:3.11-"
    state := { available := true, images := ["codegate-deps:python:3.11-"]
               buildSucceeds := true }
    didBuild := true }

/-- Concrete outcome of the second (cache-hit) call in the cache
idempotence witness. -/
def witnessOutcome2 : BuildOutcome :=
  { tag := "codegate-deps:python:3.11-"
    state := { available := true, images := ["codegate-deps:python:3.11-"]
               buildSucceeds := true }
    didBuild := false }

/-! ## Helper lemmas -/

/-- `run_rule` labels its result with the dispatched rule name, in every
outcome branch. -/
theorem run_rule_rule_name
    (execRule : String → RuleConfig → Except String (Bool × String))
    (n : String) (c : RuleConfig) :
    (run_rule execRule n c).rule_name = n := by
  unfold run_rule
  split
  · rfl
  · split <;> rfl

/-- Every result produced by the rule loop is named after some rule of
the contract. -/
theorem mem_runRules_name
    (execRule : String → RuleConfig → Except String (Bool × String))
    (l : List (String × RuleConfig)) (r : RuleResult)
    (h : r ∈ runRules execRule l) : r.rule_name ∈ l.map Prod.fst := by
  induction l with
  | nil => simp [runRules] at h
  | cons p rest ih =>
    obtain ⟨n, c⟩ := p
    rw [runRules] at h
    by_cases hd : isDisabled c
    · rw [if_pos hd] at h
      exact List.mem_cons_of_mem _ (ih h)
    · rw [if_neg hd] at h
      rcases List.mem_cons.mp h with rfl | h
      · simp [run_rule_rule_name]
      · exact List.mem_cons_of_mem _ (ih h)

/-! ## Claim theorems -/

/-- C1: calling `build_deps_image` twice with the identical configuration
and `force_rebuild = false` returns the same image reference both times
— the deterministic config-hash tag — and invokes the underlying
`docker build` at most once across the two calls (the second call is a
cache hit whenever the first built).  Stated for every hash function,
daemon state and configuration. -/
theorem build_deps_image_cache_idempotent
    (hash : String → String) (st : DockerState) (runtime_image : String)
    (system_dependencies python_dependencies : List String) (r1 r2 : BuildOutcome)
    (h1 : build_deps_image hash st runtime_image system_dependencies
        python_dependencies false = Except.ok r1)
    (h2 : build_deps_image hash r1.state runtime_image system_dependencies
        python_dependencies false = Except.ok r2) :
    r1.tag = image_tag hash runtime_image system_dependencies python_dependencies ∧
    r2.tag = r1.tag ∧ ¬(r1.didBuild = true ∧ r2.didBuild = true) := by
  unfold build_deps_image at h1 h2
  cases hav : st.available with
  | false => simp [hav] at h1
  | true =>
    simp only [hav, Bool.not_true, Bool.false_eq_true, if_false, Bool.true_and] at h1
    cases hex : image_exists st
        (image_tag hash runtime_image system_dependencies python_dependencies) with
    | true =>
      simp only [hex, Bool.not_false, Bool.true_and, if_true, Except.ok.injEq] at h1
      subst h1
      simp only [hav, hex, Bool.not_false, Bool.true_and, if_true,
        Bool.not_true, Bool.false_eq_true, if_false, Except.ok.injEq] at h2
      subst h2
      simp
    | false =>
      simp only [hex, Bool.not_false, Bool.true_and, Bool.false_eq_true, if_false] at h1
      cases hbs : st.buildSucceeds with
      | false => simp [hbs] at h1
      | true =>
        simp only [hbs, if_true, Except.ok.injEq] at h1
        subst h1
        simp [image_exists] at h2
        subst h2
        simp

/-- C1 witness: evaluated on an empty daemon with the identity digest,
the first call builds, the second returns the same tag without
building. -/
theorem build_deps_image_cache_idempotent_witness :
    build_deps_image id ⟨true, [], true⟩ "python:3.11-slim" [] [] false
        = Except.ok witnessOutcome1 ∧
    build_deps_image id witnessOutcome1.state "python:3.11-slim" [] [] false
        = Except.ok witnessOutcome2 ∧
    (witnessOutcome1.tag = image_tag id "python:3.11-slim" [] [] ∧
      witnessOutcome2.tag = witnessOutcome1.tag ∧
      ¬(witnessOutcome1.didBuild = true ∧ witnessOutcome2.didBuild = true)) :=
  ⟨rfl, rfl,
    build_deps_image_cache_idempotent id ⟨true, [], true⟩ "python:3.11-slim" [] []
      witnessOutcome1 witnessOutcome2 rfl rfl⟩

/-- C2 (code evaluated at the failing input): evaluating the scenario
contract — the policy rule enabled on the `import yaml` project with
forbidden distribution `PyYAML` — produces a single failed dispatch
result carrying the rules-package import error, for a healthy rule body
(`execOk` stands for the policy analyzer that would report the
violation): the policy rule never runs, so no forbidden-distribution
violation and no used-distributions output is ever produced. -/
theorem policy_scenario_dispatch_fails :
    runRules execOk [("policy", RuleConfig.dict (some true))] =
      [{ rule_name := "policy", passed := false
         message := "Rule execution failed: "
           ++ ("Rule \x27policy\x27 not found at codegate.rules.policy: "
             ++ rulesPackageImportError) }] := by
  decide

/-- C3: the dispatch boundary of `_run_rule` never lets an exception
escape: for every possible rule-body behaviour (including bodies that
raise), `run_rule` returns a `RuleResult`, and the exception actually
raised inside the boundary — in the shipped code always the module-load
`ImportError`, raised before any rule body runs — is converted into a
result with `passed = false` whose message carries that exception
message, after which the rule loop proceeds over the remaining rules. -/
theorem run_rule_catches_exceptions
    (execRule : String → RuleConfig → Except String (Bool × String))
    (rule_name : String) (cfg : RuleConfig) (e : String)
    (rest : List (String × RuleConfig))
    (hload : load_rule_module rule_name = Except.error e)
    (hen : isDisabled cfg = false) :
    run_rule execRule rule_name cfg =
      { rule_name := rule_name, passed := false
        message := "Rule execution failed: " ++ e } ∧
    runRules execRule ((rule_name, cfg) :: rest)
      = run_rule execRule rule_name cfg :: runRules execRule rest := by
  constructor
  · simp [run_rule, hload]
  · simp [runRules, hen]

/-- C3 witness: dispatching `policy` with a body that would raise `boom`
yields the failed result carrying the message of the exception that is
actually raised (the module-load error), and the loop over a one-rule
contract records exactly that result. -/
theorem run_rule_catches_exceptions_witness :
    load_rule_module "policy" = Except.error
      ("Rule \x27policy\x27 not found at codegate.rules.policy: "
        ++ rulesPackageImportError) ∧
    (run_rule execBoom "policy" (RuleConfig.dict (some true)) =
      { rule_name := "policy", passed := false
        message := "Rule execution failed: "
          ++ ("Rule \x27policy\x27 not found at codegate.rules.policy: "
            ++ rulesPackageImportError) } ∧
    runRules execBoom [("policy", RuleConfig.dict (some true))]
      = run_rule execBoom "policy" (RuleConfig.dict (some true))
        :: runRules execBoom []) :=
  ⟨by rfl,
    run_rule_catches_exceptions execBoom "policy" (RuleConfig.dict (some true))
      ("Rule \x27policy\x27 not found at codegate.rules.policy: "
        ++ rulesPackageImportError) [] (by rfl) rfl⟩

/-- C4 counterexample: at the concrete input of the claim — the policy
rule enabled (config carrying `forbidden_modules`, which the dispatch
never reads) on the `import yaml` project — the program yields a failed
import-error dispatch result: no import statement is ever checked
against the forbidden-module list and no violation of any class is
emitted (`execOk` stands for the never-invoked rule body). -/
theorem policy_forbidden_modules_cex :
    run_rule execOk "policy" (RuleConfig.dict (some true)) =
      { rule_name := "policy", passed := false
        message := "Rule execution failed: "
          ++ ("Rule \x27policy\x27 not found at codegate.rules.policy: "
            ++ rulesPackageImportError) } := by
  decide

/-- C4 (amended): module-name forbidding does not operate at all: the
outcome of dispatching the policy rule is one and the same failed
import-error result for every rule configuration and every conceivable
rule body — in particular it is independent of `forbidden_modules`
(which even the policy source text never reads; its docstring disclaims
comparing module names). -/
theorem policy_dispatch_independent_of_config
    (execRule execRule2 : String → RuleConfig → Except String (Bool × String))
    (cfg cfg2 : RuleConfig) :
    run_rule execRule "policy" cfg = run_rule execRule2 "policy" cfg2 ∧
    (run_rule execRule "policy" cfg).passed = false := by
  exact ⟨rfl, rfl⟩

/-- C5 (code evaluated at the failing input): dispatching the policy rule
with a nonexistent project path yields a failed result whose message is
the module-load error — not a distinct `path not found` message.  The
project path is not even an input of the dispatch outcome: the rule
fails at import before any filesystem access (`execBoom` stands for
whatever the rule body would have done at the missing path; it is never
invoked). -/
theorem policy_missing_path_dispatch :
    run_rule execBoom "policy" (RuleConfig.dict (some true)) =
      { rule_name := "policy", passed := false
        message := "Rule execution failed: "
          ++ ("Rule \x27policy\x27 not found at codegate.rules.policy: "
            ++ rulesPackageImportError) } := by
  decide

/-- C6: a rule whose dict config sets `enabled: false` is skipped
entirely: no result in the collection bears its name (given contract
rule names are unique, as dict keys are), and the result collection —
from which total/passed/failed are computed — equals that of the
contract with the rule removed. -/
theorem disabled_rule_produces_no_result
    (execRule : String → RuleConfig → Except String (Bool × String))
    (rules : List (String × RuleConfig)) (name : String)
    (hmem : (name, RuleConfig.dict (some false)) ∈ rules)
    (hnodup : (rules.map Prod.fst).Nodup) :
    (∀ r ∈ runRules execRule rules, r.rule_name ≠ name) ∧
    runRules execRule rules
      = runRules execRule (rules.filter (fun p => p.1 != name)) := by
  induction rules with
  | nil => cases hmem
  | cons p rest ih =>
    obtain ⟨n, c⟩ := p
    simp only [List.map_cons, List.nodup_cons] at hnodup
    obtain ⟨hnot, hnd⟩ := hnodup
    rcases List.mem_cons.mp hmem with heq | hmem2
    · cases heq
      have hfr : rest.filter (fun p => p.1 != name) = rest := by
        apply List.filter_eq_self.mpr
        intro q hq
        apply bne_iff_ne.mpr
        intro hqn
        exact hnot (hqn ▸ List.mem_map.mpr ⟨q, hq, rfl⟩)
      constructor
      · intro r hr
        rw [runRules, if_pos (by rfl)] at hr
        intro hrn
        exact hnot (hrn ▸ mem_runRules_name execRule rest r hr)
      · rw [runRules, if_pos (by rfl)]
        simp [List.filter, hfr]
    · have hnname : n ≠ name := by
        intro h
        exact hnot (h ▸ List.mem_map.mpr ⟨_, hmem2, rfl⟩)
      obtain ⟨ih1, ih2⟩ := ih hmem2 hnd
      have hkeep : ((n, c) :: rest).filter (fun p => p.1 != name)
          = (n, c) :: rest.filter (fun p => p.1 != name) := by
        simp [List.filter, bne_iff_ne.mpr hnname]
      constructor
      · intro r hr
        rw [runRules] at hr
        by_cases hd : isDisabled c
        · rw [if_pos hd] at hr
          exact ih1 r hr
        · rw [if_neg hd] at hr
          rcases List.mem_cons.mp hr with rfl | hr
          · simp [run_rule_rule_name, hnname]
          · exact ih1 r hr
      · rw [hkeep, runRules, runRules]
        by_cases hd : isDisabled c
        · rw [if_pos hd, if_pos hd, ih2]
        · rw [if_neg hd, if_neg hd, ih2]

/-- C6 witness: in a two-rule contract where `policy` is disabled, no
result is named `policy` and the results equal those of the contract
filtered to the other rule. -/
theorem disabled_rule_produces_no_result_witness :
    (∀ r ∈ runRules execOk
        [("policy", RuleConfig.dict (some false)),
         ("unit_tests", RuleConfig.dict (some true))], r.rule_name ≠ "policy") ∧
    runRules execOk
        [("policy", RuleConfig.dict (some false)),
         ("unit_tests", RuleConfig.dict (some true))]
      = runRules execOk
          ([("policy", RuleConfig.dict (some false)),
            ("unit_tests", RuleConfig.dict (some true))].filter
            (fun p => p.1 != "policy")) :=
  disabled_rule_produces_no_result execOk
    [("policy", RuleConfig.dict (some false)),
     ("unit_tests", RuleConfig.dict (some true))] "policy"
    (by decide) (by decide)

/-- C7: dispatching any enabled rule name produces exactly one
`RuleResult` with `passed = false` whose message contains `not found`
(stated both as the exact message and as a substring decomposition), and
the loop continues over the remaining rules.  In the shipped code no
name resolves to an implementation — the package init fails before any
submodule import, so the registry is effectively empty — hence this
holds in particular for every name absent from the intended registry. -/
theorem unknown_rule_not_found_result
    (execRule : String → RuleConfig → Except String (Bool × String))
    (rule_name : String) (cfg : RuleConfig)
    (rest : List (String × RuleConfig))
    (hen : isDisabled cfg = false) :
    run_rule execRule rule_name cfg =
      { rule_name := rule_name, passed := false
        message := "Rule execution failed: "
          ++ ("Rule \x27" ++ rule_name ++ "\x27 not found at codegate.rules."
            ++ dashToUnderscore rule_name ++ ": " ++ rulesPackageImportError) } ∧
    (∃ a b, (run_rule execRule rule_name cfg).message = a ++ "not found" ++ b) ∧
    runRules execRule ((rule_name, cfg) :: rest)
      = run_rule execRule rule_name cfg :: runRules execRule rest := by
  have hmsg : run_rule execRule rule_name cfg =
      { rule_name := rule_name, passed := false
        message := "Rule execution failed: "
          ++ ("Rule \x27" ++ rule_name ++ "\x27 not found at codegate.rules."
            ++ dashToUnderscore rule_name ++ ": " ++ rulesPackageImportError) } := by
    simp [run_rule, load_rule_module]
  refine ⟨hmsg, ?_, by simp [runRules, hen]⟩
  refine ⟨"Rule execution failed: " ++ ("Rule \x27" ++ rule_name ++ "\x27 "),
    " at codegate.rules." ++ dashToUnderscore rule_name
      ++ ": " ++ rulesPackageImportError, ?_⟩
  rw [hmsg]
  rw [show ("\x27 not found at codegate.rules." : String)
      = "\x27 " ++ ("not found" ++ " at codegate.rules.") from by decide]
  simp only [String.append_assoc]

/-- C7 witness: dispatching the name `nonexistent_rule` — absent from the
intended registry — produces the single failed not-found result and the
loop completes. -/
theorem unknown_rule_not_found_result_witness :
    run_rule execOk "nonexistent_rule" (RuleConfig.dict (some true)) =
      { rule_name := "nonexistent_rule", passed := false
        message := "Rule execution failed: "
          ++ ("Rule \x27nonexistent_rule\x27 not found at codegate.rules."
            ++ dashToUnderscore "nonexistent_rule"
            ++ ": " ++ rulesPackageImportError) } ∧
    (∃ a b, (run_rule execOk "nonexistent_rule" (RuleConfig.dict (some true))).message
      = a ++ "not found" ++ b) ∧
    runRules execOk [("nonexistent_rule", RuleConfig.dict (some true))]
      = run_rule execOk "nonexistent_rule" (RuleConfig.dict (some true))
        :: runRules execOk [] :=
  unknown_rule_not_found_result execOk "nonexistent_rule"
    (RuleConfig.dict (some true)) [] rfl

/-- C8: with zero executed rules the summary has `total = 0`,
`passed = 0`, `failed = 0` and `success_rate = 0.0`; and for every
non-empty result list the divisor of the success-rate computation (the
total) is non-zero, so the computation never divides by zero. -/
theorem summary_zero_rules (rs : List RuleResult) (h : rs ≠ []) :
    summaryOf [] = { total := 0, passed := 0, failed := 0, success_rate := 0 } ∧
    ((summaryOf rs).total : ℚ) ≠ 0 := by
  refine ⟨rfl, ?_⟩
  have hlen : rs.length ≠ 0 := fun hl => h (List.eq_nil_of_length_eq_zero hl)
  simp only [summaryOf]
  exact_mod_cast hlen

/-- C8 witness: evaluated at a concrete one-element result list. -/
theorem summary_zero_rules_witness :
    summaryOf [] = { total := 0, passed := 0, failed := 0, success_rate := 0 } ∧
    ((summaryOf [{ rule_name := "policy", passed := true
                   message := "No policy violations found" }]).total : ℚ) ≠ 0 :=
  summary_zero_rules
    [{ rule_name := "policy", passed := true, message := "No policy violations found" }]
    (by decide)

/-- C9 (code evaluated at the failing input): evaluating a contract that
enables the policy rule (on the project whose file calls `os.system` on
line 3, with forbidden API `os.system`) alongside another rule completes
with every dispatch failing at module load: the call-name reconstruction
code never runs and no forbidden-API violation is ever recorded —
the only results are the failed import-error ones. -/
theorem policy_api_scenario_dispatch_fails :
    runRules execOk
        [("policy", RuleConfig.dict (some true)),
         ("build_imports", RuleConfig.dict (some true))] =
      [{ rule_name := "policy", passed := false
         message := "Rule execution failed: "
           ++ ("Rule \x27policy\x27 not found at codegate.rules.policy: "
             ++ rulesPackageImportError) },
       { rule_name := "build_imports", passed := false
         message := "Rule execution failed: "
           ++ ("Rule \x27build_imports\x27 not found at codegate.rules.build_imports: "
             ++ rulesPackageImportError) }] := by
  decide

/-- C10: a rule whose config is not a mapping, or is a mapping without an
`enabled` key, is never skipped: it is dispatched, and a non-mapping
config is substituted by the empty mapping (the dispatch outcome equals
that of an empty dict config). -/
theorem runner_dispatches_nondict_and_missing_enabled
    (execRule : String → RuleConfig → Except String (Bool × String))
    (name : String) (rest : List (String × RuleConfig)) :
    isDisabled RuleConfig.nonDict = false ∧
    isDisabled (RuleConfig.dict none) = false ∧
    normalizeConfig RuleConfig.nonDict = RuleConfig.dict none ∧
    runRules execRule ((name, RuleConfig.nonDict) :: rest)
      = run_rule execRule name RuleConfig.nonDict :: runRules execRule rest ∧
    runRules execRule ((name, RuleConfig.dict none) :: rest)
      = run_rule execRule name (RuleConfig.dict none) :: runRules execRule rest ∧
    run_rule execRule name RuleConfig.nonDict
      = run_rule execRule name (RuleConfig.dict none) := by
  refine ⟨rfl, rfl, rfl, ?_, ?_, rfl⟩
  · rw [runRules, if_neg (by simp [isDisabled])]
  · rw [runRules, if_neg (by simp [isDisabled])]

end Codegate
